import Mathlib

/-!
Verification of the blog-translation workflow tools
(`tools/blog-post-translator/translate_posts.py` and
`tools/missing-translations-scanner/scan_missing_translations.py`).

Python strings are modelled as lists of characters (`Str`).  External
capabilities (the LLM translation call, `yaml.safe_load`,
`datetime.strptime`, the filesystem) are modelled as explicit oracle
parameters or oracle fields, exactly at the boundaries where the Python
code calls them; everything the Python code itself computes is translated
directly from the source.
-/

/-- Python `str` modelled as a list of characters. -/
abbrev Str := List Char

/-- Shorthand turning a Lean string literal into the `Str` model. -/
def S (s : String) : Str := s.data

/-- Characters removed by Python's default `str.strip` / `str.lstrip`
(ASCII whitespace; the unicode whitespace extension is irrelevant here). -/
def isPySpace (c : Char) : Bool :=
  c == ' ' || c == '\t' || c == '\n' || c == '\x0b' || c == '\x0c' || c == '\r'

/-- Python `s.strip()`: remove leading and trailing whitespace. -/
def pyStrip (s : Str) : Str :=
  ((s.dropWhile isPySpace).reverse.dropWhile isPySpace).reverse

/-- ASCII lowercasing.  Python `str.lower()` applies the full Unicode
lowercase mapping, which this function implements only on ASCII; it is
therefore NOT used inside the embedded comparison logic (which takes the
lowercasing as an explicit `lower : Str → Str` oracle parameter) but only
to instantiate that oracle at concrete all-ASCII witness documents, where
the two functions agree. -/
def pyLower (s : Str) : Str := s.map Char.toLower

/-!
## translate_posts.py : URL rewriting (`update_url_for_language`, lines 137-153)
-/

/-- Embedding of `update_url_for_language` (translate_posts.py lines 137-153):
identity for `'en'`, otherwise strip leading slashes and prepend
`/{lang_code}/`. -/
def update_url_for_language (url : Str) (lang_code : Str) : Str :=
  if lang_code = S "en" then url
  else '/' :: lang_code ++ '/' :: url.dropWhile (· == '/')

/-!
## translate_posts.py : retry loop of `translate_post` (lines 397-461)

The loop body performs, per attempt: front-matter translation and body
translation (external LLM calls), `save_translated_post`, and
`verify_translation`.  Those external effects are modelled as per-attempt
oracle outcomes; the loop's own control flow (retry on falsy body
translation / failed save / rejected verification, deletion of the
just-saved artifact only when another attempt follows, best-effort unlink)
is translated directly from the source.  The `except` branch at lines
452-459 behaves exactly like a failed attempt that retries or exhausts.
-/

/-- Oracle outcomes of the external calls made during one attempt of the
retry loop in `translate_post`:
* `bodyTranslated` — `translate_text` on the body returned a truthy string;
* `saveOk` — `save_translated_post` returned `True`;
* `verifyOk` — `verify_translation` returned `True`;
* `unlinkOk` — `Path.unlink` on the rejected artifact did not raise. -/
structure Attempt where
  bodyTranslated : Bool
  saveOk : Bool
  verifyOk : Bool
  unlinkOk : Bool
deriving DecidableEq, Repr

/-- Result of one `translate_post` run: the returned boolean, whether the
`index.{lang}.md` artifact is on disk afterwards, and how many attempts
were consumed. -/
structure RunResult where
  success : Bool
  artifactOnDisk : Bool
  attemptsUsed : Nat
deriving DecidableEq, Repr

/-- Embedding of the retry loop of `translate_post`
(translate_posts.py lines 397-461).  The list holds the oracle outcomes of
the `max_retries` attempts (`for attempt in range(1, max_retries + 1)`);
`rest.isEmpty` is exactly the source's `attempt < max_retries` being
false.  The boolean argument tracks whether the artifact file is on disk. -/
def translate_post : List Attempt → Bool → RunResult
  | [], disk => ⟨false, disk, 0⟩
  | a :: rest, disk =>
    if a.bodyTranslated then
      if a.saveOk then
        if a.verifyOk then ⟨true, true, 1⟩
        else if rest.isEmpty then ⟨false, true, 1⟩
        else
          let r := translate_post rest (if a.unlinkOk then false else true)
          ⟨r.success, r.artifactOnDisk, r.attemptsUsed + 1⟩
      else if rest.isEmpty then ⟨false, disk, 1⟩
      else
        let r := translate_post rest disk
        ⟨r.success, r.artifactOnDisk, r.attemptsUsed + 1⟩
    else if rest.isEmpty then ⟨false, disk, 1⟩
    else
      let r := translate_post rest disk
      ⟨r.success, r.artifactOnDisk, r.attemptsUsed + 1⟩

/-- An attempt succeeds outright when the body translation, the save and
the verification all succeed. -/
def goodAttempt (a : Attempt) : Bool :=
  a.bodyTranslated && a.saveOk && a.verifyOk

/-- Disk state after a non-final attempt that did not fully succeed: only
when the attempt got as far as saving (translation and save succeeded, so
verification must have rejected) is the artifact on disk unless the
best-effort unlink removed it; otherwise the disk is untouched. -/
def nextDisk (a : Attempt) (d : Bool) : Bool :=
  if a.bodyTranslated && a.saveOk then !a.unlinkOk else d

/-- An attempt whose translation and save succeed but whose verification
rejects the artifact. -/
def rejectedAttempt : Attempt := ⟨true, true, false, true⟩

/-!
## scan_missing_translations.py : languages, filters, scan
-/

/-- Lexicographic comparison of `Str` by character code points, the order
used by Python's `sorted` on strings. -/
def strLe : Str → Str → Bool
  | [], _ => true
  | _ :: _, [] => false
  | a :: as, b :: bs => if a < b then true else if b < a then false else strLe as bs

/-- The ordering relation form of `strLe`. -/
def strLeR (a b : Str) : Prop := strLe a b = true

instance : DecidableRel strLeR := fun a b => inferInstanceAs (Decidable (strLe a b = true))

/-- Embedding of `get_expected_languages` (scan_missing_translations.py
lines 34-39): the config's language keys minus `'en'`, sorted.  Python's
`sorted` is modelled by insertion sort under the code-point order, which
agrees with it extensionally. -/
def get_expected_languages (langKeys : List Str) : List Str :=
  List.insertionSort strLeR (langKeys.filter (fun code => code ≠ S "en"))

/-- The front-matter fields consulted by the scanner's filters
(`tags`, `date`).  A missing or non-list `tags` field behaves as the empty
list (the source guards with `isinstance(tags, list)`); `date` is the raw
string value when present. -/
structure ScanFM where
  tags : List Str
  date : Option Str
deriving DecidableEq, Repr

/-- Embedding of the `PostFilter` constructor state
(scan_missing_translations.py lines 100-111): a name, an enabled flag and
the kwargs configuration, of which the filter bodies read `tag`,
`min_year` and `max_year`. -/
structure PostFilter where
  name : Str
  enabled : Bool
  cfgTag : Option Str
  cfgMinYear : Option Int
  cfgMaxYear : Option Int
deriving DecidableEq, Repr

/-- Embedding of `PostFilter._check_archived` (lines 140-146):
`self.config.get('tag', 'zArchive') in tags`. -/
def PostFilter.check_archived (f : PostFilter) (fm : ScanFM) : Bool :=
  (f.cfgTag.getD (S "zArchive")) ∈ fm.tags

/-- Embedding of `PostFilter._check_date_range` (lines 148-170).
`parseYear` is the oracle for `datetime.strptime(date_str,
'%a, %d %b %Y %H:%M:%S %z').year`, returning `none` when `strptime`
raises; the source returns `False` (fail-open) on a falsy date field and
on a parse failure. -/
def PostFilter.check_date_range (f : PostFilter) (parseYear : Str → Option Int)
    (fm : ScanFM) : Bool :=
  match fm.date with
  | none => false
  | some s =>
    if s.isEmpty then false
    else
      match parseYear s with
      | none => false
      | some year =>
        if (match f.cfgMinYear with | some mn => decide (year < mn) | none => false) then true
        else if (match f.cfgMaxYear with | some mx => decide (year > mx) | none => false) then true
        else false

/-- Embedding of `PostFilter._check_tag` (lines 172-181): a falsy
configured tag never matches, otherwise membership in `tags`. -/
def PostFilter.check_tag (f : PostFilter) (fm : ScanFM) : Bool :=
  match f.cfgTag with
  | none => false
  | some t => if t.isEmpty then false else t ∈ fm.tags

/-- Embedding of `PostFilter.should_skip` (lines 113-138): disabled
filters and absent front matter never match; otherwise dispatch on the
filter name, unknown names never match. -/
def PostFilter.should_skip (f : PostFilter) (parseYear : Str → Option Int)
    (fm : Option ScanFM) : Bool :=
  if !f.enabled then false
  else
    match fm with
    | none => false
    | some m =>
      if f.name = S "archived" then f.check_archived m
      else if f.name = S "date_range" then f.check_date_range parseYear m
      else if f.name = S "tag" then f.check_tag m
      else false

/-- Embedding of `should_skip_post` (lines 205-222): first matching filter
wins; returns the pair `(should_skip, filter_name)`. -/
def should_skip_post (parseYear : Str → Option Int) (filters : List PostFilter)
    (fm : Option ScanFM) : Bool × Option Str :=
  match filters with
  | [] => (false, none)
  | f :: rest =>
    if f.should_skip parseYear fm then (true, some f.name)
    else should_skip_post parseYear rest fm

/-- A blog post directory as the scanner sees it: its path relative to the
content root parent, the parse result of its `index.md` front matter
(`parse_front_matter`, `none` on failure — yaml is opaque), and the
language codes for which `index.{lang}.md` variant files exist
(`get_translation_files`). -/
structure Post where
  path : Str
  fm : Option ScanFM
  foundLangs : List Str
deriving DecidableEq, Repr

/-- Python `dict[k] += 1` on a `defaultdict(int)`, preserving insertion
order: bump an existing key in place, else append the key with count 1. -/
def incr : List (Str × Nat) → Str → List (Str × Nat)
  | [], n => [(n, 1)]
  | (k, v) :: rest, n =>
    if k = n then (k, v + 1) :: rest else (k, v) :: incr rest n

/-- Python `dict[k] = v`, preserving insertion order: overwrite an
existing key in place, else append. -/
def dictSet (m : List (Str × List Str)) (k : Str) (v : List Str) : List (Str × List Str) :=
  match m with
  | [] => [(k, v)]
  | (k1, v1) :: rest =>
    if k1 = k then (k, v) :: rest else (k1, v1) :: dictSet rest k v

/-- Python `dict.get(k)`: value of the (unique) entry with key `k`. -/
def dictGet (m : List (Str × List Str)) (k : Str) : Option (List Str) :=
  match m with
  | [] => none
  | (k1, v1) :: rest => if k1 = k then some v1 else dictGet rest k

/-- Sum of the counters of a counts dict (`sum(filter_counts.values())`). -/
def sumCounts (c : List (Str × Nat)) : Nat := (c.map Prod.snd).sum

/-- Accumulated scan state: `missing_translations`, `lang_statistics` and
`filter_counts` (all Python dicts in insertion order). -/
structure ScanAcc where
  missing : List (Str × List Str)
  stats : List (Str × Nat)
  counts : List (Str × Nat)
deriving DecidableEq, Repr

/-- Embedding of the per-post loop of `scan_missing_translations`
(scan_missing_translations.py lines 365-386): skip via the filter chain
(counting the first matching filter's name), otherwise compute
`missing_langs = [lang for lang in expected_langs if lang not in
found_langs]` and record the entry only when it is non-empty. -/
def scanPosts (parseYear : Str → Option Int) (expected : List Str)
    (filters : List PostFilter) : List Post → ScanAcc → ScanAcc
  | [], acc => acc
  | p :: rest, acc =>
    match should_skip_post parseYear filters p.fm with
    | (true, fname) =>
      scanPosts parseYear expected filters rest
        { acc with counts := incr acc.counts (fname.getD []) }
    | (false, _) =>
      let missingLangs := expected.filter (fun lang => !(p.foundLangs.contains lang))
      if missingLangs.isEmpty then scanPosts parseYear expected filters rest acc
      else
        scanPosts parseYear expected filters rest
          { acc with
            missing := dictSet acc.missing p.path missingLangs
            stats := missingLangs.foldl (fun s lang => incr s lang) acc.stats }

/-- Embedding of `scan_missing_translations` (lines 309-406) restricted to
what the claims consume: the scan accumulator together with
`total_posts = len(blog_posts) - filtered_count` where `filtered_count =
sum(filter_counts.values())` (lines 394 and 406). -/
def scan_missing_translations (parseYear : Str → Option Int) (expected : List Str)
    (filters : List PostFilter) (posts : List Post) : ScanAcc × Nat :=
  let acc := scanPosts parseYear expected filters posts ⟨[], [], []⟩
  (acc, posts.length - sumCounts acc.counts)

/-- One entry of the JSON report's `posts` list (URL derivation via
`extract_url_from_post` reads further files and is not consumed by any
claim, so the `url`/`urls` fields are not modelled). -/
structure ReportPost where
  path : Str
  missing_languages : List Str
  missing_count : Nat
  total_expected : Nat
deriving DecidableEq, Repr

/-- The `summary` object of the JSON report (the fields the claims
consume). -/
structure ReportSummary where
  total_posts_scanned : Nat
  posts_with_missing_translations : Nat
  posts_complete : Int
  filters_counts : List (Str × Nat)
  expected_languages : List Str
  total_expected_languages : Nat
  all_complete : Bool
deriving DecidableEq, Repr

/-- The JSON report structure. -/
structure Report where
  summary : ReportSummary
  posts : List ReportPost
deriving DecidableEq, Repr

/-- Embedding of `generate_json_report` (lines 409-479): posts are emitted
for `sorted(missing_translations.keys())`, and the summary counters are
computed exactly as at lines 463-475. -/
def generate_json_report (missing : List (Str × List Str)) (expected : List Str)
    (total_posts : Nat) (filter_counts : List (Str × Nat)) : Report :=
  { summary :=
      { total_posts_scanned := total_posts
        posts_with_missing_translations := missing.length
        posts_complete := (total_posts : Int) - (missing.length : Int)
        filters_counts := filter_counts
        expected_languages := expected
        total_expected_languages := expected.length
        all_complete := missing.length == 0 }
    posts :=
      (List.insertionSort strLeR (missing.map Prod.fst)).map fun p =>
        let langs := (dictGet missing p).getD []
        { path := p
          missing_languages := langs
          missing_count := langs.length
          total_expected := expected.length } }

/-- A language code is lower-case when lowering changes no character. -/
def isLowercaseCode (s : Str) : Bool := s.all fun c => c.toLower == c

/-!
## translate_posts.py : front-matter parsing and `verify_translation`
-/

/-- The front-matter fields consulted by `verify_translation`
(`title`, `description`, `summary`); a `none` field is absent
(`field in fm` false). -/
structure TransFM where
  title : Option Str
  description : Option Str
  summary : Option Str
deriving DecidableEq, Repr

/-- Python `content.find(needle)` on the `Str` model: index of the first
occurrence, `none` when absent (the source's `-1`). -/
def strFind (needle : Str) : Str → Option Nat
  | [] => if needle.isEmpty then some 0 else none
  | hay@(_ :: rest) =>
    if needle.isPrefixOf hay then some 0
    else (strFind needle rest).map (· + 1)

/-- Embedding of `parse_front_matter` (translate_posts.py lines 63-86).
`yamlLoad` is the oracle for `yaml.safe_load`; `none` covers both a raised
exception and a falsy parse result (the two return different bodies in the
source, but every caller ignores the body when the front matter is falsy,
so the exception body is used here).  `content.find('\x2d\x2d\x2d', 4)` is
modelled by searching the tail from index 4. -/
def parse_front_matter (yamlLoad : Str → Option TransFM) (content : Str) :
    Option TransFM × Str :=
  if !((S "---").isPrefixOf content) then (none, content)
  else
    match strFind (S "\n---") (content.drop 4) with
    | none => (none, content)
    | some k =>
      let endMarker := k + 4
      let fmText := (content.take endMarker).drop 4
      let body := (content.drop (endMarker + 5)).dropWhile isPySpace
      match yamlLoad fmText with
      | some fm => (some fm, body)
      | none => (none, content)

/-- Embedding of the per-field comparison of `verify_translation`
(lines 267-277): both fields present, stripped-lowered values differ, the
translated value is non-empty, and not both values start with a slash.
`lower` is Python `str.lower()` (full Unicode lowercasing), passed as an
oracle exactly where the source calls it, after `strip()`. -/
def fieldCheck (lower : Str → Str) : Option Str → Option Str → Bool
  | some tv, some ov =>
    let t := lower (pyStrip tv)
    let o := lower (pyStrip ov)
    t != o && 0 < t.length && !(t.head? == some '/' && o.head? == some '/')
  | _, _ => false

/-- Embedding of the `front_matter_translated` flag (lines 263-277): the
loop over `['title', 'description', 'summary']` with early break. -/
def front_matter_translated (lower : Str → Str) (tfm ofm : TransFM) : Bool :=
  fieldCheck lower tfm.title ofm.title
    || fieldCheck lower tfm.description ofm.description
    || fieldCheck lower tfm.summary ofm.summary

/-- State of the multiline findall scan underlying the header extraction:
`normal` means the scanner sits at a fresh line start; `absorb c` means a
heading marker on an earlier line was followed only by whitespace so far,
the greedy whitespace run is still open and may cross further newlines,
and `c` is the backtracking candidate — the most recent non-newline
whitespace character of the run sitting at least one character into it
(the group produced if the string ends inside the run). -/
inductive HeadScan where
  | normal : HeadScan
  | absorb : Option Char → HeadScan

/-- Line-by-line evaluation of
`re.findall` with pattern `^#{1,6}\s+(.+)$` under `re.MULTILINE`
(lines 281-282).  A match starts at a line beginning (`^`) with one to six
hash characters; the greedy `\s+` then consumes whitespace INCLUDING
newlines, so it may run across blank or whitespace-only lines; the group
`(.+)` is the rest (at least one character, no newline) of the line on
which the first non-whitespace character sits, and `$` holds at that line
end.  When the string ends inside the whitespace run, the regex engine
backtracks `\s+` to the last position whose character is not a newline and
which leaves `\s+` non-empty, making that single whitespace character the
group.  Matches are non-overlapping: scanning resumes on the line after a
match ends. -/
def findHeadersLines : HeadScan → List Str → List Str
  | .normal, [] => []
  | .absorb cand, [] =>
    match cand with
    | some c => [[c]]
    | none => []
  | .normal, line :: rest =>
    let h := (line.takeWhile (· == '#')).length
    if 1 ≤ h ∧ h ≤ 6 then
      let a := line.drop h
      let w := a.takeWhile isPySpace
      let g := a.drop w.length
      if w.length = 0 ∧ a ≠ [] then findHeadersLines .normal rest
      else if g ≠ [] then g :: findHeadersLines .normal rest
      else findHeadersLines (.absorb (if 2 ≤ a.length then a.getLast? else none)) rest
    else findHeadersLines .normal rest
  | .absorb cand, line :: rest =>
    let b := line.dropWhile isPySpace
    if b ≠ [] then b :: findHeadersLines .normal rest
    else findHeadersLines (.absorb (if line.isEmpty then cand else line.getLast?)) rest

/-- Embedding of the header extraction (lines 281-282): the multiline
regex findall over the body, evaluated on its newline-split lines. -/
def findHeaders (body : Str) : List Str :=
  findHeadersLines .normal (body.splitOn '\n')

/-- Embedding of the `headers_translated` flag (lines 284-298): both
heading lists non-empty, and among the first `min(len, len, 3)` pairs at
least one differs after strip+lower. -/
def headers_translated (lower : Str → Str) (th oh : List Str) : Bool :=
  if !th.isEmpty && !oh.isEmpty then
    let m := min (min th.length oh.length) 3
    if 0 < m then
      (List.range m).any fun i =>
        lower (pyStrip (th.getD i [])) != lower (pyStrip (oh.getD i []))
    else false
  else false

/-- Embedding of `verify_translation` (translate_posts.py lines 212-324).
`produced` is the artifact read from disk (`none`: missing file or read
error); `original_content` is the optional original document; `lower` is
the `str.lower()` oracle used by the field and heading comparisons.  The
structural gates, the falsy checks on the original content and its parsed
front matter, and the four-rule decision block are translated branch by
branch from the source. -/
def verify_translation (yamlLoad : Str → Option TransFM) (lower : Str → Str)
    (min_content_length : Nat)
    (produced : Option Str) (original_content : Option Str) : Bool :=
  match produced with
  | none => false
  | some translated_content =>
    if (pyStrip translated_content).length < min_content_length then false
    else if !((S "---").isPrefixOf (pyStrip translated_content)) then false
    else
      match parse_front_matter yamlLoad translated_content with
      | (none, _) => false
      | (some translated_fm, translated_body) =>
        if (pyStrip translated_body).length < 50 then false
        else
          match original_content with
          | none => true
          | some oc =>
            if oc.isEmpty then true
            else
              match parse_front_matter yamlLoad oc with
              | (none, _) => true
              | (some original_fm, original_body) =>
                let fmT := front_matter_translated lower translated_fm original_fm
                let oh := findHeaders original_body
                let hT := headers_translated lower (findHeaders translated_body) oh
                if fmT || hT then true
                else if 0 < oh.length ∧ hT = false then false
                else if oh.length = 0 ∧ fmT = false then true
                else false

/-- Modelled from the spec: the purely structural acceptance conditions of
the verification engine (file exists, trimmed length at least the
threshold, header delimiter present and parseable, body at least 50
characters), stated independently of the original-comparison logic for
the fail-open refinement claim. -/
def structural_ok (yamlLoad : Str → Option TransFM) (min_content_length : Nat)
    (produced : Option Str) : Bool :=
  match produced with
  | none => false
  | some tc =>
    !((pyStrip tc).length < min_content_length)
      && (S "---").isPrefixOf (pyStrip tc)
      && (match parse_front_matter yamlLoad tc with
          | (none, _) => false
          | (some _, tbody) => !((pyStrip tbody).length < 50))

/-!
## Order instances for the code-point comparison
-/

instance : IsTotal Str strLeR where
  total := by
    intro a
    induction a with
    | nil => intro b; left; rfl
    | cons x xs ih =>
      intro b
      cases b with
      | nil => right; rfl
      | cons y ys =>
        rcases lt_trichotomy x y with h | h | h
        · left; simp [strLeR, strLe, h]
        · subst h
          rcases ih ys with hh | hh
          · left; simpa [strLeR, strLe, lt_irrefl] using hh
          · right; simpa [strLeR, strLe, lt_irrefl] using hh
        · right; simp [strLeR, strLe, h]

instance : IsTrans Str strLeR where
  trans := by
    intro a
    induction a with
    | nil => intro b c _ _; rfl
    | cons x xs ih =>
      intro b c hab hbc
      cases b with
      | nil => exact absurd hab (by simp [strLeR, strLe])
      | cons y ys =>
        cases c with
        | nil => exact absurd hbc (by simp [strLeR, strLe])
        | cons z zs =>
          rcases lt_trichotomy x y with h1 | h1 | h1
          · rcases lt_trichotomy y z with h2 | h2 | h2
            · have h3 : x < z := lt_trans h1 h2
              simp [strLeR, strLe, h3]
            · subst h2; simp [strLeR, strLe, h1]
            · have hyz : ¬ y < z := asymm h2
              exact absurd hbc (by simp [strLeR, strLe, hyz, h2])
          · subst h1
            have hab2 : strLe xs ys = true := by
              simpa [strLeR, strLe, lt_irrefl] using hab
            rcases lt_trichotomy x z with h2 | h2 | h2
            · simp [strLeR, strLe, h2]
            · subst h2
              have hbc2 : strLe ys zs = true := by
                simpa [strLeR, strLe, lt_irrefl] using hbc
              have := ih ys zs hab2 hbc2
              simpa [strLeR, strLe, lt_irrefl] using this
            · have hxz : ¬ x < z := asymm h2
              exact absurd hbc (by simp [strLeR, strLe, hxz, h2])
          · have hxy : ¬ x < y := asymm h1
            exact absurd hab (by simp [strLeR, strLe, hxy, h1])

/-!
## Concrete witness inputs
-/

/-- A `strptime` oracle knowing one fixed-format date with year 2020. -/
def parseYearW : Str → Option Int := fun s =>
  if s = S "Wed, 01 Jan 2020 00:00:00 +0000" then some 2020 else none

/-- The default `date_range` filter configured with a minimum year 2025. -/
def dateFilterW : PostFilter := ⟨S "date_range", true, none, some 2025, none⟩

/-- Front matter dated 2020 (before the configured minimum year). -/
def dated2020FM : ScanFM := ⟨[], some (S "Wed, 01 Jan 2020 00:00:00 +0000")⟩

/-- An `archived`-style filter configured with tag `x`. -/
def chainFilter1 : PostFilter := ⟨S "archived", true, some (S "x"), none, none⟩

/-- A `tag` filter configured with the same tag `x`. -/
def chainFilter2 : PostFilter := ⟨S "tag", true, some (S "x"), none, none⟩

/-- A post tagged `x`, matched by both chain filters. -/
def taggedPost : Post := ⟨S "posts/p1", some ⟨[S "x"], none⟩, []⟩

/-- A post with a `de` variant only, not matched by any filter. -/
def scannedPost : Post := ⟨S "posts/p2", none, [S "de"]⟩

/-- A yaml oracle for the fail-open witness document. -/
def yamlW10 : Str → Option TransFM := fun s =>
  if s = S "title: hola" then some ⟨some (S "Hola"), none, none⟩ else none

/-- A structurally valid artifact for the fail-open witness. -/
def tcW10 : Str :=
  S "---\ntitle: hola\n---\n\nEste es un documento de prueba con suficiente contenido para pasar todas las comprobaciones estructurales."

/-- A yaml oracle for the verification-decision witness documents. -/
def yamlC6 : Str → Option TransFM := fun s =>
  if s = S "title: hola mundo" then some ⟨some (S "Hola Mundo"), none, none⟩
  else if s = S "title: hello world" then some ⟨some (S "Hello World"), none, none⟩
  else none

/-- Translated artifact for the verification-decision witness. -/
def tcC6 : Str :=
  S "---\ntitle: hola mundo\n---\n\n# Introduccion\nContenido suficientemente largo para pasar el umbral de cincuenta caracteres del cuerpo."

/-- Original document for the verification-decision witness. -/
def ocC6 : Str := S "---\ntitle: hello world\n---\n\n# Introduction\nSome body."

/-- Body of `tcC6` after front-matter extraction. -/
def tbodyC6 : Str :=
  S "# Introduccion\nContenido suficientemente largo para pasar el umbral de cincuenta caracteres del cuerpo."

/-- Body of `ocC6` after front-matter extraction. -/
def obodyC6 : Str := S "# Introduction\nSome body."

/-- Parsed front matter of `tcC6`. -/
def tfmC6 : TransFM := ⟨some (S "Hola Mundo"), none, none⟩

/-- Parsed front matter of `ocC6`. -/
def ofmC6 : TransFM := ⟨some (S "Hello World"), none, none⟩

/-- A yaml oracle whose translated title strips to empty: the translated
title differs case-insensitively from the original yet is not counted as
translated by the source's non-emptiness requirement. -/
def yamlC6x : Str → Option TransFM := fun s =>
  if s = S "title: blank" then some ⟨some (S " "), none, none⟩
  else if s = S "title: hello" then some ⟨some (S "Hello"), none, none⟩
  else none

/-- Translated artifact whose title strips to empty and whose headings are
identical to the original's. -/
def tcC6x : Str :=
  S "---\ntitle: blank\n---\n\n# Shared Heading\nRelleno de texto para superar el limite estructural de longitud del cuerpo."

/-- Original document with title `Hello` and the same heading. -/
def ocC6x : Str := S "---\ntitle: hello\n---\n\n# Shared Heading\nbody."

/-!
## Theorems about the retry loop
-/

theorem tp_cons_good (a : Attempt) (rest : List Attempt) (d : Bool)
    (h : goodAttempt a = true) : translate_post (a :: rest) d = ⟨true, true, 1⟩ := by
  simp only [goodAttempt, Bool.and_eq_true] at h
  obtain ⟨⟨hb, hs⟩, hv⟩ := h
  rw [translate_post]
  simp [hb, hs, hv]

theorem tp_cons_notgood_nil (a : Attempt) (d : Bool) (h : goodAttempt a = false) :
    translate_post [a] d = ⟨false, if a.bodyTranslated && a.saveOk then true else d, 1⟩ := by
  cases hb : a.bodyTranslated <;> cases hs : a.saveOk <;> cases hv : a.verifyOk <;>
    rw [translate_post] <;> simp_all [goodAttempt]

theorem tp_cons_notgood_cons (a b0 : Attempt) (bs : List Attempt) (d : Bool)
    (h : goodAttempt a = false) :
    translate_post (a :: b0 :: bs) d =
      ⟨(translate_post (b0 :: bs) (nextDisk a d)).success,
       (translate_post (b0 :: bs) (nextDisk a d)).artifactOnDisk,
       (translate_post (b0 :: bs) (nextDisk a d)).attemptsUsed + 1⟩ := by
  cases hb : a.bodyTranslated <;> cases hs : a.saveOk <;> cases hv : a.verifyOk <;>
    rw [translate_post] <;> simp_all [goodAttempt, nextDisk]

theorem tp_success : ∀ (as : List Attempt) (d : Bool),
    (translate_post as d).success = as.any goodAttempt
  | [], _ => rfl
  | a :: rest, d => by
    cases hg : goodAttempt a with
    | true => rw [tp_cons_good a rest d hg]; simp [List.any_cons, hg]
    | false =>
      cases rest with
      | nil => rw [tp_cons_notgood_nil a d hg]; simp [List.any_cons, hg]
      | cons b bs =>
        rw [tp_cons_notgood_cons a b bs d hg]
        simp only [List.any_cons, hg, Bool.false_or]
        exact tp_success (b :: bs) _

theorem tp_used_le : ∀ (as : List Attempt) (d : Bool),
    (translate_post as d).attemptsUsed ≤ as.length
  | [], _ => Nat.le_refl 0
  | a :: rest, d => by
    cases hg : goodAttempt a with
    | true => rw [tp_cons_good a rest d hg]; simp
    | false =>
      cases rest with
      | nil => rw [tp_cons_notgood_nil a d hg]; simp
      | cons b bs =>
        rw [tp_cons_notgood_cons a b bs d hg]
        simp only [List.length_cons]
        exact Nat.succ_le_succ (tp_used_le (b :: bs) _)

theorem tp_used_found : ∀ (as : List Attempt) (d : Bool), as.any goodAttempt = true →
    (translate_post as d).attemptsUsed = as.findIdx goodAttempt + 1
  | [], _, h => by simp at h
  | a :: rest, d, h => by
    cases hg : goodAttempt a with
    | true => rw [tp_cons_good a rest d hg]; simp [List.findIdx_cons, hg]
    | false =>
      cases rest with
      | nil => simp [List.any_cons, hg] at h
      | cons b bs =>
        have h2 : (b :: bs).any goodAttempt = true := by
          simp only [List.any_cons, hg, Bool.false_or] at h; exact h
        rw [tp_cons_notgood_cons a b bs d hg, List.findIdx_cons]
        simp only [hg, cond_false]
        rw [tp_used_found (b :: bs) _ h2]

theorem tp_used_exhaust : ∀ (as : List Attempt) (d : Bool), as.any goodAttempt = false →
    (translate_post as d).attemptsUsed = as.length
  | [], _, _ => rfl
  | a :: rest, d, h => by
    cases hg : goodAttempt a with
    | true => simp [List.any_cons, hg] at h
    | false =>
      cases rest with
      | nil => rw [tp_cons_notgood_nil a d hg]; simp
      | cons b bs =>
        have h2 : (b :: bs).any goodAttempt = false := by
          simp only [List.any_cons, hg, Bool.false_or] at h; exact h
        rw [tp_cons_notgood_cons a b bs d hg]
        simp only [List.length_cons]
        rw [tp_used_exhaust (b :: bs) _ h2]
        simp

/-- C9: the retry loop of `translate_post` performs at most `maxRetries`
attempts (the length of the oracle list) and terminates (it is a total
function); it succeeds exactly when some attempt has translation, save and
verification all succeeding, in which case it stops at the first such
attempt; and when no attempt succeeds it consumes exactly the full attempt
bound and returns failure. -/
theorem retry_controller_bounded (as : List Attempt) (d : Bool) :
    (translate_post as d).attemptsUsed ≤ as.length
    ∧ (translate_post as d).success = as.any goodAttempt
    ∧ (as.any goodAttempt = true →
        (translate_post as d).attemptsUsed = as.findIdx goodAttempt + 1)
    ∧ (as.any goodAttempt = false →
        (translate_post as d).attemptsUsed = as.length) :=
  ⟨tp_used_le as d, tp_success as d, tp_used_found as d, tp_used_exhaust as d⟩

/-- C9 witness: a run whose first attempt fails and whose second attempt
succeeds returns success after exactly two attempts. -/
theorem retry_controller_bounded_w :
    (translate_post [Attempt.mk false true true true, Attempt.mk true true true true]
        false).attemptsUsed = 2
    ∧ (translate_post [Attempt.mk false true true true, Attempt.mk true true true true]
        false).success = true := by
  have h := retry_controller_bounded
    [Attempt.mk false true true true, Attempt.mk true true true true] false
  constructor
  · rw [h.2.2.1 (by decide)]; decide
  · rw [h.2.1]; decide

/-- C1 counterexample: a task whose three attempts all translate and save
but are all rejected by verification is marked failed with the artifact of
the final attempt still on disk — the final rejection does not delete the
artifact, so an artifact file does remain for the (item, language) pair. -/
theorem final_rejection_artifact_cex :
    (translate_post [rejectedAttempt, rejectedAttempt, rejectedAttempt] false).success = false
    ∧ (translate_post [rejectedAttempt, rejectedAttempt, rejectedAttempt]
        false).artifactOnDisk = true := by
  decide

/-- C1 amended: the rejected artifact is deleted only when another attempt
follows; a verification rejection on the final attempt leaves the artifact
on disk while the task is marked failed.  First conjunct: a non-final
rejected attempt (with successful unlink) continues with the artifact
removed.  Second conjunct: whenever the last attempt translates, saves and
is rejected, and no earlier attempt fully succeeded, the task fails with
the artifact still on disk. -/
theorem cleanup_only_before_retry (a : Attempt) (ht : a.bodyTranslated = true)
    (hs : a.saveOk = true) (hv : a.verifyOk = false) :
    (∀ (b : Attempt) (rest : List Attempt) (d : Bool), a.unlinkOk = true →
        translate_post (a :: b :: rest) d =
          ⟨(translate_post (b :: rest) false).success,
           (translate_post (b :: rest) false).artifactOnDisk,
           (translate_post (b :: rest) false).attemptsUsed + 1⟩)
    ∧ (∀ (pre : List Attempt) (d : Bool), (∀ x ∈ pre, goodAttempt x = false) →
        (translate_post (pre ++ [a]) d).success = false
        ∧ (translate_post (pre ++ [a]) d).artifactOnDisk = true) := by
  constructor
  · intro b rest d hu
    simp [translate_post, ht, hs, hv, hu]
  · intro pre
    induction pre with
    | nil =>
      intro d _
      simp [translate_post, ht, hs, hv]
    | cons x xs ih =>
      intro d hpre
      have hx : goodAttempt x = false := hpre x (List.mem_cons_self x xs)
      have hxs : ∀ y ∈ xs, goodAttempt y = false :=
        fun y hy => hpre y (List.mem_cons_of_mem x hy)
      have hne : (xs ++ [a]).isEmpty = false := by simp
      cases hxb : x.bodyTranslated <;> cases hxsv : x.saveOk <;> cases hxv : x.verifyOk <;>
        first
        | (simp [translate_post, hxb, hxsv, hxv, hne]
           exact ih _ hxs)
        | simp [goodAttempt, hxb, hxsv, hxv] at hx

/-- C1 witness for the amended claim: with two attempts, both rejected by
verification, the run fails and the artifact is still on disk. -/
theorem cleanup_only_before_retry_w :
    (translate_post ([rejectedAttempt] ++ [rejectedAttempt]) false).success = false
    ∧ (translate_post ([rejectedAttempt] ++ [rejectedAttempt]) false).artifactOnDisk = true :=
  (cleanup_only_before_retry rejectedAttempt rfl rfl rfl).2 [rejectedAttempt] false (by decide)

/-!
## Theorems about the URL rewrite
-/

/-- C2 counterexample: applying the non-canonical rewrite twice
double-prefixes the language code, so the rewrite is not idempotent. -/
theorem update_url_double_prefix_cex :
    update_url_for_language (update_url_for_language (S "/comparison/post/") (S "ar")) (S "ar")
      ≠ update_url_for_language (S "/comparison/post/") (S "ar") := by
  decide

/-- C2 amended: the rewrite is the identity for the canonical code `'en'`;
for any other (non-empty, non-slash-leading) code a single application
prefixes the code as a path segment, but a second application prefixes it
again, so the result of applying the rewrite twice differs from applying
it once. -/
theorem update_url_not_idempotent (url lang : Str) (hen : lang ≠ S "en")
    (hne : lang ≠ []) (hsl : lang.head? ≠ some '/') :
    update_url_for_language url (S "en") = url
    ∧ update_url_for_language (update_url_for_language url lang) lang
        = '/' :: lang ++ '/' :: (lang ++ '/' :: url.dropWhile (· == '/'))
    ∧ update_url_for_language (update_url_for_language url lang) lang
        ≠ update_url_for_language url lang := by
  obtain ⟨c, l, rfl⟩ : ∃ c l, lang = c :: l := by
    cases lang with
    | nil => exact absurd rfl hne
    | cons c l => exact ⟨c, l, rfl⟩
  have hc : (c == '/') = false := by
    cases hcc : c == '/' with
    | false => rfl
    | true =>
      exfalso
      apply hsl
      simp only [List.head?]
      simp only [beq_iff_eq] at hcc
      rw [hcc]
  have hstep : update_url_for_language url (c :: l)
      = '/' :: (c :: l) ++ '/' :: url.dropWhile (· == '/') := by
    simp [update_url_for_language, hen]
  have h2 : update_url_for_language (update_url_for_language url (c :: l)) (c :: l)
      = '/' :: (c :: l) ++ '/' :: ((c :: l) ++ '/' :: url.dropWhile (· == '/')) := by
    rw [hstep]
    simp [update_url_for_language, hen, List.dropWhile_cons, hc]
  refine ⟨by simp [update_url_for_language], h2, ?_⟩
  rw [h2, hstep]
  intro heq
  have hlen := congrArg List.length heq
  simp [List.length_append] at hlen
  omega

/-- C2 witness for the amended claim at a concrete URL and language. -/
theorem update_url_not_idempotent_w :
    update_url_for_language (S "/c/") (S "en") = S "/c/"
    ∧ update_url_for_language (update_url_for_language (S "/c/") (S "ar")) (S "ar")
        = '/' :: S "ar" ++ '/' :: (S "ar" ++ '/' :: (S "/c/").dropWhile (· == '/'))
    ∧ update_url_for_language (update_url_for_language (S "/c/") (S "ar")) (S "ar")
        ≠ update_url_for_language (S "/c/") (S "ar") :=
  update_url_not_idempotent (S "/c/") (S "ar") (by decide) (by decide) (by decide)

/-!
## Theorems about the expected-language list
-/

/-- C3 counterexample: a configuration whose language key is upper-case
passes through `get_expected_languages` unchanged, so the derived list is
not guaranteed to contain only lower-case codes. -/
theorem expected_languages_lowercase_cex :
    get_expected_languages [S "DE"] = [S "DE"] ∧ isLowercaseCode (S "DE") = false := by
  decide

/-- C3 amended: for every configuration with (necessarily unique) language
keys, the derived expected-language list excludes `'en'`, has no
duplicates, and is sorted in the stable code-point order; the codes are
taken verbatim from the configuration and are not case-normalized. -/
theorem expected_languages_invariant (keys : List Str) (hnd : keys.Nodup) :
    S "en" ∉ get_expected_languages keys
    ∧ (get_expected_languages keys).Nodup
    ∧ List.Sorted strLeR (get_expected_languages keys) := by
  refine ⟨?_, ?_, ?_⟩
  · intro hmem
    rw [get_expected_languages, List.mem_insertionSort] at hmem
    have hpred := (List.mem_filter.mp hmem).2
    simp at hpred
  · rw [get_expected_languages]
    exact ((List.perm_insertionSort strLeR _).nodup_iff).mpr (hnd.filter _)
  · exact List.sorted_insertionSort strLeR _

/-- C3 witness for the amended claim on a concrete configuration. -/
theorem expected_languages_invariant_w :
    S "en" ∉ get_expected_languages [S "de", S "en", S "ar"]
    ∧ (get_expected_languages [S "de", S "en", S "ar"]).Nodup
    ∧ List.Sorted strLeR (get_expected_languages [S "de", S "en", S "ar"]) :=
  expected_languages_invariant [S "de", S "en", S "ar"] (by decide)

/-!
## Theorems about the date-range filter
-/

theorem dr_ne_archived : S "date_range" ≠ S "archived" := by decide

/-- C8: the `date_range` filter is fail-open — it never skips an item
whose date field is missing or whose date fails to parse (the `strptime`
oracle returns `none`, and `strptime` rejects the empty string) — and when
the date parses it skips exactly the items whose year is below the
configured minimum or above the configured maximum. -/
theorem date_range_fail_open (parseYear : Str → Option Int) (f : PostFilter) (m : ScanFM)
    (hname : f.name = S "date_range") (hempty : parseYear [] = none) :
    (m.date = none → f.should_skip parseYear (some m) = false)
    ∧ (∀ s, m.date = some s → parseYear s = none →
        f.should_skip parseYear (some m) = false)
    ∧ (f.enabled = true → ∀ s y, m.date = some s → parseYear s = some y →
        (f.should_skip parseYear (some m) = true ↔
          (∃ mn, f.cfgMinYear = some mn ∧ y < mn)
          ∨ (∃ mx, f.cfgMaxYear = some mx ∧ y > mx))) := by
  refine ⟨?_, ?_, ?_⟩
  · intro hd
    simp [PostFilter.should_skip, hname, dr_ne_archived, PostFilter.check_date_range, hd]
  · intro s hd hp
    simp [PostFilter.should_skip, hname, dr_ne_archived, PostFilter.check_date_range, hd, hp]
  · intro hen s y hd hp
    cases s with
    | nil =>
      rw [hempty] at hp
      exact absurd hp (by simp)
    | cons c cs =>
      simp only [PostFilter.should_skip, hname, dr_ne_archived, hen,
        PostFilter.check_date_range, hd, hp, Bool.not_true, List.isEmpty_cons,
        if_false, Bool.false_eq_true, ite_false, ite_true]
      rcases hmn : f.cfgMinYear with _ | mn <;> rcases hmx : f.cfgMaxYear with _ | mx <;>
        simp [hmn, hmx]

/-- C8 witness: the concrete `date_range` filter with minimum year 2025
skips a post dated 2020. -/
theorem date_range_fail_open_w :
    PostFilter.should_skip dateFilterW parseYearW (some dated2020FM) = true :=
  ((date_range_fail_open parseYearW dateFilterW dated2020FM rfl (by decide)).2.2 rfl
      (S "Wed, 01 Jan 2020 00:00:00 +0000") 2020 rfl (by decide)).mpr
    (Or.inl ⟨2025, rfl, by decide⟩)

/-!
## Theorems about the filter chain and the scan counters
-/

theorem sumCounts_incr (c : List (Str × Nat)) (n : Str) :
    sumCounts (incr c n) = sumCounts c + 1 := by
  induction c with
  | nil => rfl
  | cons kv rest ih =>
    obtain ⟨k, v⟩ := kv
    by_cases hk : k = n
    · simp [incr, hk, sumCounts]
      omega
    · simp only [incr, hk, ite_false, if_neg hk]
      simp only [sumCounts, List.map_cons, List.sum_cons] at ih ⊢
      omega

theorem should_skip_post_append (pY : Str → Option Int) (fm : Option ScanFM)
    (pre : List PostFilter) (f1 : PostFilter) (mid : List PostFilter)
    (hpre : ∀ g ∈ pre, g.should_skip pY fm = false)
    (h1 : f1.should_skip pY fm = true) :
    should_skip_post pY (pre ++ f1 :: mid) fm = (true, some f1.name) := by
  induction pre with
  | nil => simp [should_skip_post, h1]
  | cons g gs ih =>
    have hg : g.should_skip pY fm = false := hpre g (List.mem_cons_self g gs)
    simp only [List.cons_append, should_skip_post, hg, Bool.false_eq_true, ite_false,
      if_neg]
    exact ih (fun x hx => hpre x (List.mem_cons_of_mem g hx))

/-- C5: the filter chain short-circuits — with a prefix of non-matching
filters followed by a matching filter `f1`, and a second matching filter
`f2` anywhere later in the chain, the chain reports `f1`'s name; during
the scan such a post is counted exactly once, under `f1`'s name; and that
single increment raises the total exclusion sum by exactly one, so the
total-scanned count drops by exactly one. -/
theorem filter_chain_first_match (pY : Str → Option Int) (p : Post)
    (pre mid : List PostFilter) (f1 f2 : PostFilter)
    (hpre : ∀ g ∈ pre, g.should_skip pY p.fm = false)
    (h1 : f1.should_skip pY p.fm = true)
    (h2 : f2 ∈ mid) (h2m : f2.should_skip pY p.fm = true)
    (expected : List Str) (rest : List Post) (acc : ScanAcc) :
    should_skip_post pY (pre ++ f1 :: mid) p.fm = (true, some f1.name)
    ∧ scanPosts pY expected (pre ++ f1 :: mid) (p :: rest) acc
        = scanPosts pY expected (pre ++ f1 :: mid) rest
            { acc with counts := incr acc.counts f1.name }
    ∧ sumCounts (incr acc.counts f1.name) = sumCounts acc.counts + 1 := by
  have hssp := should_skip_post_append pY p.fm pre f1 mid hpre h1
  refine ⟨hssp, ?_, sumCounts_incr acc.counts f1.name⟩
  rw [scanPosts, hssp]
  rfl

/-- C5 witness: with the `archived`-style filter (tag `x`) configured
before the `tag` filter (same tag `x`), a post tagged `x` is reported
under the first filter's name and counted once. -/
theorem filter_chain_first_match_w :
    should_skip_post parseYearW ([] ++ chainFilter1 :: [chainFilter2]) taggedPost.fm
      = (true, some chainFilter1.name)
    ∧ scanPosts parseYearW [] ([] ++ chainFilter1 :: [chainFilter2]) (taggedPost :: []) ⟨[], [], []⟩
        = scanPosts parseYearW [] ([] ++ chainFilter1 :: [chainFilter2]) []
            { (⟨[], [], []⟩ : ScanAcc) with counts := incr [] chainFilter1.name }
    ∧ sumCounts (incr [] chainFilter1.name) = sumCounts [] + 1 :=
  filter_chain_first_match parseYearW taggedPost [] [chainFilter2] chainFilter1 chainFilter2
    (by simp) (by decide) (List.mem_cons_self chainFilter2 []) (by decide) [] [] ⟨[], [], []⟩

/-!
## Dictionary lemmas and the coverage-entry characterization
-/

theorem dictGet_dictSet_self (m : List (Str × List Str)) (k : Str) (v : List Str) :
    dictGet (dictSet m k v) k = some v := by
  induction m with
  | nil => simp [dictSet, dictGet]
  | cons kv rest ih =>
    obtain ⟨k1, v1⟩ := kv
    by_cases h : k1 = k
    · simp [dictSet, dictGet, h]
    · simp [dictSet, dictGet, h, ih]

theorem dictGet_dictSet_ne (m : List (Str × List Str)) (k1 k : Str) (v : List Str)
    (h : k1 ≠ k) : dictGet (dictSet m k1 v) k = dictGet m k := by
  induction m with
  | nil => simp [dictSet, dictGet, h]
  | cons kv rest ih =>
    obtain ⟨k2, v2⟩ := kv
    by_cases h2 : k2 = k1
    · subst h2
      simp [dictSet, dictGet, h]
    · simp [dictSet, dictGet, h2, ih]

theorem dictGet_eq_none (m : List (Str × List Str)) (k : Str) :
    dictGet m k = none ↔ k ∉ m.map Prod.fst := by
  induction m with
  | nil => simp [dictGet]
  | cons kv rest ih =>
    obtain ⟨k1, v1⟩ := kv
    by_cases h : k1 = k
    · simp [dictGet, h]
    · simp [dictGet, h, ih, Ne.symm h]

theorem dictGet_mem (m : List (Str × List Str)) (k : Str) (v : List Str)
    (h : dictGet m k = some v) : (k, v) ∈ m := by
  induction m with
  | nil => simp [dictGet] at h
  | cons kv rest ih =>
    obtain ⟨k1, v1⟩ := kv
    by_cases hk : k1 = k
    · simp only [dictGet, hk, ite_true, if_pos, Option.some.injEq] at h
      subst hk
      subst h
      exact List.mem_cons_self _ _
    · simp only [dictGet, hk, ite_false, if_neg hk] at h
      exact List.mem_cons_of_mem _ (ih h)

theorem mem_dictSet (m : List (Str × List Str)) (k : Str) (v : List Str) :
    ∀ kv ∈ dictSet m k v, kv ∈ m ∨ kv = (k, v) := by
  induction m with
  | nil =>
    intro kv h
    simp [dictSet] at h
    right
    exact h
  | cons kv1 rest ih =>
    obtain ⟨k1, v1⟩ := kv1
    intro kv h
    by_cases hk : k1 = k
    · simp only [dictSet, hk, ite_true, if_pos, List.mem_cons] at h
      rcases h with h | h
      · right; exact h
      · left; exact List.mem_cons_of_mem _ h
    · simp only [dictSet, hk, ite_false, if_neg hk, List.mem_cons] at h
      rcases h with h | h
      · left; rw [h]; exact List.mem_cons_self _ _
      · rcases ih kv h with h2 | h2
        · left; exact List.mem_cons_of_mem _ h2
        · right; exact h2

theorem mem_map_fst_dictSet (m : List (Str × List Str)) (k0 : Str) (v : List Str)
    (k : Str) :
    k ∈ (dictSet m k0 v).map Prod.fst ↔ k ∈ m.map Prod.fst ∨ k = k0 := by
  induction m with
  | nil => simp [dictSet, eq_comm]
  | cons kv rest ih =>
    obtain ⟨k1, v1⟩ := kv
    by_cases h : k1 = k0
    · subst h
      simp [dictSet]
      tauto
    · simp [dictSet, h, ih]
      tauto

theorem scanPosts_missing_untouched (pY : Str → Option Int) (expected : List Str)
    (filters : List PostFilter) :
    ∀ (posts : List Post) (acc : ScanAcc) (k : Str), k ∉ posts.map Post.path →
      dictGet (scanPosts pY expected filters posts acc).missing k = dictGet acc.missing k
  | [], _, _, _ => rfl
  | p :: rest, acc, k, h => by
    have hk1 : k ≠ p.path := by
      intro he
      exact h (by simp [he])
    have hk2 : k ∉ rest.map Post.path := by
      intro hm
      exact h (by simp [hm])
    rcases hss : should_skip_post pY filters p.fm with ⟨skip, fname⟩
    cases skip
    · simp only [scanPosts, hss]
      by_cases hm : (expected.filter fun lang => !(p.foundLangs.contains lang)).isEmpty = true
      · rw [if_pos hm]
        exact scanPosts_missing_untouched pY expected filters rest acc k hk2
      · rw [if_neg hm]
        rw [scanPosts_missing_untouched pY expected filters rest _ k hk2]
        exact dictGet_dictSet_ne _ _ _ _ (fun he => hk1 he.symm)
    · simp only [scanPosts, hss]
      exact scanPosts_missing_untouched pY expected filters rest _ k hk2

theorem scanPosts_values_nonempty (pY : Str → Option Int) (expected : List Str)
    (filters : List PostFilter) :
    ∀ (posts : List Post) (acc : ScanAcc),
      (∀ kv ∈ acc.missing, kv.2 ≠ []) →
      ∀ kv ∈ (scanPosts pY expected filters posts acc).missing, kv.2 ≠ []
  | [], _, h => h
  | p :: rest, acc, h => by
    rcases hss : should_skip_post pY filters p.fm with ⟨skip, fname⟩
    cases skip
    · simp only [scanPosts, hss]
      by_cases hm : (expected.filter fun lang => !(p.foundLangs.contains lang)).isEmpty = true
      · rw [if_pos hm]
        exact scanPosts_values_nonempty pY expected filters rest acc h
      · rw [if_neg hm]
        have hne0 : (expected.filter fun lang => !(p.foundLangs.contains lang)) ≠ [] := by
          intro he
          exact hm (by rw [he]; rfl)
        refine scanPosts_values_nonempty pY expected filters rest _ ?_
        intro kv hkv
        rcases mem_dictSet _ _ _ kv hkv with h2 | h2
        · exact h kv h2
        · rw [h2]
          exact hne0
    · simp only [scanPosts, hss]
      exact scanPosts_values_nonempty pY expected filters rest _ h

theorem scanPosts_missing_lookup (pY : Str → Option Int) (expected : List Str)
    (filters : List PostFilter) :
    ∀ (posts : List Post) (acc : ScanAcc) (p : Post), p ∈ posts →
      (posts.map Post.path).Nodup →
      p.path ∉ acc.missing.map Prod.fst →
      (should_skip_post pY filters p.fm).1 = false →
      dictGet (scanPosts pY expected filters posts acc).missing p.path
        = if (expected.filter fun lang => !(p.foundLangs.contains lang)).isEmpty = true
          then none
          else some (expected.filter fun lang => !(p.foundLangs.contains lang))
  | [], _, p, hp, _, _, _ => absurd hp (List.not_mem_nil p)
  | q :: rest, acc, p, hp, hnd, hacc, hskip => by
    rw [List.map_cons] at hnd
    have hq := List.nodup_cons.mp hnd
    rcases List.mem_cons.mp hp with heq | hmem
    · subst heq
      rcases hss : should_skip_post pY filters p.fm with ⟨skip, fname⟩
      have hskip2 : skip = false := by
        rw [hss] at hskip
        exact hskip
      subst hskip2
      simp only [scanPosts, hss]
      by_cases hm : (expected.filter fun lang => !(p.foundLangs.contains lang)).isEmpty = true
      · rw [if_pos hm, if_pos hm]
        rw [scanPosts_missing_untouched pY expected filters rest acc p.path hq.1]
        exact (dictGet_eq_none _ _).mpr hacc
      · rw [if_neg hm, if_neg hm]
        rw [scanPosts_missing_untouched pY expected filters rest _ p.path hq.1]
        exact dictGet_dictSet_self _ _ _
    · have hqp : q.path ≠ p.path := by
        intro he
        exact hq.1 (he ▸ List.mem_map_of_mem Post.path hmem)
      rcases hss : should_skip_post pY filters q.fm with ⟨skip, fname⟩
      cases skip
      · simp only [scanPosts, hss]
        by_cases hm : (expected.filter fun lang => !(q.foundLangs.contains lang)).isEmpty = true
        · rw [if_pos hm]
          exact scanPosts_missing_lookup pY expected filters rest acc p hmem hq.2 hacc hskip
        · rw [if_neg hm]
          refine scanPosts_missing_lookup pY expected filters rest _ p hmem hq.2 ?_ hskip
          intro hmm
          rcases (mem_map_fst_dictSet _ _ _ _).mp hmm with h2 | h2
          · exact hacc h2
          · exact hqp (h2.symm)
      · simp only [scanPosts, hss]
        exact scanPosts_missing_lookup pY expected filters rest _ p hmem hq.2 hacc hskip

/-- C4: for every scanned (unfiltered) post with a unique path, the
recorded missing-language list is the expected list filtered by absence
from the found variants (set difference in expected order), recorded
exactly when non-empty; the post contributes an entry to the report's
posts list exactly when that difference is non-empty; and no report entry
ever carries an empty missing-language list. -/
theorem coverage_entry_spec (pY : Str → Option Int) (expected : List Str)
    (filters : List PostFilter) (posts : List Post) (p : Post)
    (hp : p ∈ posts) (hnd : (posts.map Post.path).Nodup)
    (hskip : (should_skip_post pY filters p.fm).1 = false) :
    (dictGet (scan_missing_translations pY expected filters posts).1.missing p.path
      = if (expected.filter fun lang => !(p.foundLangs.contains lang)).isEmpty = true
        then none
        else some (expected.filter fun lang => !(p.foundLangs.contains lang)))
    ∧ ((∃ e ∈ (generate_json_report
            (scan_missing_translations pY expected filters posts).1.missing expected
            (scan_missing_translations pY expected filters posts).2
            (scan_missing_translations pY expected filters posts).1.counts).posts,
          e.path = p.path)
        ↔ (expected.filter fun lang => !(p.foundLangs.contains lang)) ≠ [])
    ∧ ∀ e ∈ (generate_json_report
          (scan_missing_translations pY expected filters posts).1.missing expected
          (scan_missing_translations pY expected filters posts).2
          (scan_missing_translations pY expected filters posts).1.counts).posts,
        e.missing_languages ≠ [] := by
  have hmain : dictGet (scan_missing_translations pY expected filters posts).1.missing p.path
      = if (expected.filter fun lang => !(p.foundLangs.contains lang)).isEmpty = true
        then none
        else some (expected.filter fun lang => !(p.foundLangs.contains lang)) :=
    scanPosts_missing_lookup pY expected filters posts ⟨[], [], []⟩ p hp hnd (by simp) hskip
  refine ⟨hmain, ?_, ?_⟩
  · have hmem : (∃ e ∈ (generate_json_report
            (scan_missing_translations pY expected filters posts).1.missing expected
            (scan_missing_translations pY expected filters posts).2
            (scan_missing_translations pY expected filters posts).1.counts).posts,
          e.path = p.path)
        ↔ p.path ∈ (scan_missing_translations pY expected filters posts).1.missing.map
            Prod.fst := by
      simp only [generate_json_report, List.mem_map, List.mem_insertionSort, List.map_map,
        List.mem_filter]
      constructor
      · rintro ⟨e, ⟨k, hk, rfl⟩, hpe⟩
        have hk2 : k = p.path := hpe
        rw [← hk2]
        exact hk
      · intro hk
        exact ⟨⟨p.path,
          (dictGet (scan_missing_translations pY expected filters posts).1.missing p.path).getD [],
          ((dictGet (scan_missing_translations pY expected filters
            posts).1.missing p.path).getD []).length,
          expected.length⟩, ⟨p.path, hk, rfl⟩, rfl⟩
    rw [hmem]
    constructor
    · intro hk hfil
      have hnone : dictGet (scan_missing_translations pY expected filters posts).1.missing
          p.path = none := by
        rw [hmain, if_pos (by rw [hfil]; rfl)]
      exact ((dictGet_eq_none _ _).mp hnone) hk
    · intro hfil
      by_contra hk
      have hnone : dictGet (scan_missing_translations pY expected filters posts).1.missing
          p.path = none := (dictGet_eq_none _ _).mpr hk
      rw [hmain] at hnone
      by_cases hie : (expected.filter fun lang => !(p.foundLangs.contains lang)).isEmpty = true
      · exact hfil (List.isEmpty_iff.mp hie)
      · rw [if_neg hie] at hnone
        exact Option.some_ne_none _ hnone
  · intro e he
    have hvals := scanPosts_values_nonempty pY expected filters posts ⟨[], [], []⟩
      (by intro kv hkv; simp at hkv)
    simp only [generate_json_report, List.mem_map] at he
    obtain ⟨k, hk, hfe⟩ := he
    rw [List.mem_insertionSort] at hk
    cases hd : dictGet (scan_missing_translations pY expected filters posts).1.missing k with
    | none => exact absurd hk ((dictGet_eq_none _ _).mp hd)
    | some v =>
      have hv : v ≠ [] := hvals (k, v) (dictGet_mem _ _ _ hd)
      rw [← hfe]
      simpa [hd] using hv

/-- C4 witness: with expected languages `ar`, `de`, no filters, and one
post having only the `de` variant, the scan records `missing = [ar]`, the
report contains an entry for the post, and every report entry has a
non-empty missing list. -/
theorem coverage_entry_spec_w :
    (dictGet (scan_missing_translations parseYearW [S "ar", S "de"] [] [scannedPost]).1.missing
        scannedPost.path
      = if ([S "ar", S "de"].filter fun lang =>
            !(scannedPost.foundLangs.contains lang)).isEmpty = true
        then none
        else some ([S "ar", S "de"].filter fun lang =>
          !(scannedPost.foundLangs.contains lang)))
    ∧ ((∃ e ∈ (generate_json_report
            (scan_missing_translations parseYearW [S "ar", S "de"] [] [scannedPost]).1.missing
            [S "ar", S "de"]
            (scan_missing_translations parseYearW [S "ar", S "de"] [] [scannedPost]).2
            (scan_missing_translations parseYearW [S "ar", S "de"] []
              [scannedPost]).1.counts).posts,
          e.path = scannedPost.path)
        ↔ ([S "ar", S "de"].filter fun lang =>
            !(scannedPost.foundLangs.contains lang)) ≠ [])
    ∧ ∀ e ∈ (generate_json_report
          (scan_missing_translations parseYearW [S "ar", S "de"] [] [scannedPost]).1.missing
          [S "ar", S "de"]
          (scan_missing_translations parseYearW [S "ar", S "de"] [] [scannedPost]).2
          (scan_missing_translations parseYearW [S "ar", S "de"] []
            [scannedPost]).1.counts).posts,
        e.missing_languages ≠ [] :=
  coverage_entry_spec parseYearW [S "ar", S "de"] [] [scannedPost] scannedPost
    (List.mem_cons_self scannedPost []) (by decide) rfl

/-- C7: the report summary satisfies `total_posts_scanned =
foundDirectories − Σ filters_counts` (the scan's total is the number of
directories found minus the sum of the per-filter exclusion counters),
`posts_complete = total_posts_scanned − posts_with_missing_translations`,
and `all_complete` holds exactly when `posts_with_missing_translations`
is zero. -/
theorem report_summary_counts (pY : Str → Option Int) (expected : List Str)
    (filters : List PostFilter) (posts : List Post) :
    (generate_json_report (scan_missing_translations pY expected filters posts).1.missing
        expected (scan_missing_translations pY expected filters posts).2
        (scan_missing_translations pY expected filters posts).1.counts).summary.total_posts_scanned
      = posts.length - sumCounts (scan_missing_translations pY expected filters posts).1.counts
    ∧ (generate_json_report (scan_missing_translations pY expected filters posts).1.missing
        expected (scan_missing_translations pY expected filters posts).2
        (scan_missing_translations pY expected filters posts).1.counts).summary.posts_complete
      = ((generate_json_report (scan_missing_translations pY expected filters posts).1.missing
            expected (scan_missing_translations pY expected filters posts).2
            (scan_missing_translations pY expected filters
              posts).1.counts).summary.total_posts_scanned : Int)
        - ((generate_json_report (scan_missing_translations pY expected filters posts).1.missing
            expected (scan_missing_translations pY expected filters posts).2
            (scan_missing_translations pY expected filters
              posts).1.counts).summary.posts_with_missing_translations : Int)
    ∧ ((generate_json_report (scan_missing_translations pY expected filters posts).1.missing
          expected (scan_missing_translations pY expected filters posts).2
          (scan_missing_translations pY expected filters posts).1.counts).summary.all_complete
          = true
        ↔ (generate_json_report (scan_missing_translations pY expected filters posts).1.missing
            expected (scan_missing_translations pY expected filters posts).2
            (scan_missing_translations pY expected filters
              posts).1.counts).summary.posts_with_missing_translations = 0) := by
  refine ⟨rfl, rfl, ?_⟩
  simp [generate_json_report]

/-!
## Theorems about verification
-/

set_option maxRecDepth 4000

/-- C6 counterexample: an artifact whose translated title strips to the
empty string.  The title field differs case-insensitively from the
original and neither value is a pure URL, so the claim's accept condition
holds, yet the source also requires the translated value to be non-empty:
with identical headings the verification rejects.  The structural gates
all pass, so the rejection comes from the comparison logic alone.  All
document text is ASCII, so instantiating the lowercasing oracle with
`pyLower` coincides with Python `str.lower()` here. -/
theorem verify_empty_field_rejected_cex :
    pyLower (pyStrip (S " ")) ≠ pyLower (pyStrip (S "Hello"))
    ∧ ¬((pyLower (pyStrip (S " "))).head? = some '/'
        ∧ (pyLower (pyStrip (S "Hello"))).head? = some '/')
    ∧ (parse_front_matter yamlC6x tcC6x).1 = some ⟨some (S " "), none, none⟩
    ∧ (parse_front_matter yamlC6x ocC6x).1 = some ⟨some (S "Hello"), none, none⟩
    ∧ structural_ok yamlC6x 100 (some tcC6x) = true
    ∧ verify_translation yamlC6x pyLower 100 (some tcC6x) (some ocC6x) = false := by
  decide

/-- C6 amended: given an artifact passing the structural gates and an
original whose front matter parses, verification accepts exactly when a
compared header field differs case-insensitively with a non-empty
translated value (not counting pairs where both stripped values start with
a slash), or one of the first up-to-3 headings differs, or the original
body has no headings (the lenient accept); in particular it rejects when
the original has at least one heading, no compared heading differs and the
header was not detected as translated.  Quantified over every lowercasing
oracle, hence valid for the full Unicode `str.lower()`. -/
theorem verify_decision_rule (yamlLoad : Str → Option TransFM) (lower : Str → Str)
    (mcl : Nat) (tc oc tbody obody : Str) (tfm ofm : TransFM)
    (h1 : ¬ (pyStrip tc).length < mcl)
    (h2 : (S "---").isPrefixOf (pyStrip tc) = true)
    (h3 : parse_front_matter yamlLoad tc = (some tfm, tbody))
    (h4 : ¬ (pyStrip tbody).length < 50)
    (h5 : oc.isEmpty = false)
    (h6 : parse_front_matter yamlLoad oc = (some ofm, obody)) :
    verify_translation yamlLoad lower mcl (some tc) (some oc) = true ↔
      (front_matter_translated lower tfm ofm = true
       ∨ headers_translated lower (findHeaders tbody) (findHeaders obody) = true
       ∨ findHeaders obody = []) := by
  simp only [verify_translation, h3, h6, h2, h5, Bool.not_true, if_neg h1, if_neg h4]
  simp only [Bool.false_eq_true, ite_false]
  cases hf : front_matter_translated lower tfm ofm <;>
    cases hh : headers_translated lower (findHeaders tbody) (findHeaders obody) <;>
      rcases ho : findHeaders obody with _ | ⟨x, xs⟩ <;>
        simp [hf, hh, ho]

/-- C6 witness for the amended claim: a genuinely translated title makes
verification accept the concrete (all-ASCII) artifact. -/
theorem verify_decision_rule_w :
    verify_translation yamlC6 pyLower 100 (some tcC6) (some ocC6) = true ↔
      (front_matter_translated pyLower tfmC6 ofmC6 = true
       ∨ headers_translated pyLower (findHeaders tbodyC6) (findHeaders obodyC6) = true
       ∨ findHeaders obodyC6 = []) :=
  verify_decision_rule yamlC6 pyLower 100 tcC6 ocC6 tbodyC6 obodyC6 tfmC6 ofmC6
    (by decide) (by decide) (by decide) (by decide) (by decide) (by decide)

/-- C10: when the original document's front matter fails to parse, the
translated-content comparison is skipped and verification returns exactly
the result of the structural checks alone (file present, trimmed length at
least the threshold, header delimiter present and parseable front matter,
body at least 50 characters) — fail-open with respect to an unparseable
original. -/
theorem verify_fail_open_unparseable_original (yamlLoad : Str → Option TransFM)
    (lower : Str → Str) (mcl : Nat) (tc oc : Str)
    (horig : (parse_front_matter yamlLoad oc).1 = none) :
    verify_translation yamlLoad lower mcl (some tc) (some oc)
      = structural_ok yamlLoad mcl (some tc) := by
  by_cases h1 : (pyStrip tc).length < mcl
  · simp [verify_translation, structural_ok, h1]
  · by_cases h2 : (S "---").isPrefixOf (pyStrip tc) = true
    · rcases hpt : parse_front_matter yamlLoad tc with ⟨tfm?, tbody⟩
      rcases tfm? with _ | tfm
      · simp [verify_translation, structural_ok, h1, h2, hpt]
      · by_cases h4 : (pyStrip tbody).length < 50
        · simp [verify_translation, structural_ok, h1, h2, hpt, h4]
        · by_cases h5 : oc.isEmpty = true
          · simp [verify_translation, structural_ok, h1, h2, hpt, h4, h5]
          · rcases hpo : parse_front_matter yamlLoad oc with ⟨ofm?, obody⟩
            rw [hpo] at horig
            simp only [] at horig
            subst horig
            simp [verify_translation, structural_ok, h1, h2, hpt, h4, h5, hpo]
    · simp [verify_translation, structural_ok, h1, h2]

/-- C10 witness: a structurally valid artifact is accepted against an
original with no parseable front matter. -/
theorem verify_fail_open_unparseable_original_w :
    verify_translation yamlW10 pyLower 100 (some tcW10) (some (S "plain original"))
      = structural_ok yamlW10 100 (some tcW10) :=
  verify_fail_open_unparseable_original yamlW10 pyLower 100 tcW10 (S "plain original")
    (by decide)
